import Mathlib

/-!
Verification of the peaks dashboard (src/streamlit_app.py) against its
natural-language specification.

The file shallowly embeds the data pipeline of `streamlit_app.py`:
row validation (`is_date_format`), date normalization
(`pd.to_datetime(..., format='%m/%d/%Y')` and `strftime('%m/%d/%Y')`),
the top-level control flow of `main` (filter, parse, min/max banner,
empty check, render), the per-column descriptive statistics
(`Series.describe`) and the inbound/outbound ratio computation.
Machine floats that can hold `inf`/`nan` are modelled by the `PFloat`
type below; exact numeric values are modelled by `ℚ`.
-/

namespace Peaks

/-- ASCII digit test: code points 48 ('0') through 57 ('9').  Models the
regex class `\d` of `re` / `_strptime` on the ASCII data this app
processes. -/
def isDig (c : Char) : Bool := decide (48 ≤ c.toNat ∧ c.toNat ≤ 57)

/-- Numeric value of an ASCII digit character. -/
def digitVal (c : Char) : Nat := c.toNat - 48

/-- The ASCII digit character for a value below ten. -/
def digitChar (n : Nat) : Char := Char.ofNat (48 + n)

/-- Core of `is_date_format` on the character list of the input string:
`re.match(r'\d{2}/\d{2}/\d{4}$', s)`.  `re.match` anchors the match at
the start of the string, so the whole pattern must start at position 0;
`$` (without `re.MULTILINE`) matches at the end of the string or just
before one final newline.  Hence exactly the 10-character form
`\d\d/\d\d/\d\d\d\d` and that form followed by a single `'\n'` are
accepted. -/
def dateRe : List Char → Bool
  | [a, b, s1, c, d, s2, e, f, g, h] =>
      isDig a && isDig b && s1 == '/' && isDig c && isDig d && s2 == '/' &&
      isDig e && isDig f && isDig g && isDig h
  | [a, b, s1, c, d, s2, e, f, g, h, nl] =>
      isDig a && isDig b && s1 == '/' && isDig c && isDig d && s2 == '/' &&
      isDig e && isDig f && isDig g && isDig h && nl == '\n'
  | _ => false

/-- Embedding of `is_date_format` (src/streamlit_app.py lines 16-18):
`bool(re.match(r'\d{2}/\d{2}/\d{4}$', str(x)))`.  The argument models
the text `str(x)` of the cell value. -/
def is_date_format (s : String) : Bool := dateRe s.data

/-- Year field of the `%Y` directive: `_strptime`'s `TimeRE` pattern for
`%Y` is exactly four digits, and the format string ends here, so the
whole remaining input must be those four digits (`exact=True` parsing
leaves no unconverted data). -/
def parseYear4 : List Char → Option Nat
  | [e, f, g, h] =>
      if isDig e && isDig f && isDig g && isDig h then
        some (1000 * digitVal e + 100 * digitVal f + 10 * digitVal g + digitVal h)
      else none
  | _ => none

/-- The literal `/` before the year, then the year. -/
def parseSlashYear : List Char → Option Nat
  | c :: rest => if c == '/' then parseYear4 rest else none
  | [] => none

/-- Two-digit alternative of the `%d` day field (`3[01]|[12]\d|0[1-9]`:
every two-digit string with value 1..31), then `/` and the year. -/
def parseDay2 : List Char → Option (Nat × Nat)
  | c :: d :: rest =>
      if isDig c && isDig d && decide (1 ≤ 10 * digitVal c + digitVal d) &&
          decide (10 * digitVal c + digitVal d ≤ 31) then
        (parseSlashYear rest).map (fun y => (10 * digitVal c + digitVal d, y))
      else none
  | _ => none

/-- One-digit alternative of the `%d` day field (`[1-9]`), then `/` and
the year. -/
def parseDay1 : List Char → Option (Nat × Nat)
  | c :: rest =>
      if isDig c && decide (1 ≤ digitVal c) && decide (digitVal c ≤ 9) then
        (parseSlashYear rest).map (fun y => (digitVal c, y))
      else none
  | [] => none

/-- Day-then-year with regex backtracking: the two-digit alternatives of
`%d` come first in `TimeRE`, and if the rest of the match fails the
engine retries with the one-digit alternative. -/
def parseDayYear (cs : List Char) : Option (Nat × Nat) :=
  (parseDay2 cs).orElse (fun _ => parseDay1 cs)

/-- The literal `/` between month and day, then day and year. -/
def parseSlashDayYear : List Char → Option (Nat × Nat)
  | c :: rest => if c == '/' then parseDayYear rest else none
  | [] => none

/-- Two-digit alternative of the `%m` month field (`1[0-2]|0[1-9]`:
every two-digit string with value 1..12), then the rest. -/
def parseMonth2 : List Char → Option (Nat × Nat × Nat)
  | a :: b :: rest =>
      if isDig a && isDig b && decide (1 ≤ 10 * digitVal a + digitVal b) &&
          decide (10 * digitVal a + digitVal b ≤ 12) then
        (parseSlashDayYear rest).map (fun p => (10 * digitVal a + digitVal b, p.1, p.2))
      else none
  | _ => none

/-- One-digit alternative of the `%m` month field (`[1-9]`), then the
rest. -/
def parseMonth1 : List Char → Option (Nat × Nat × Nat)
  | a :: rest =>
      if isDig a && decide (1 ≤ digitVal a) && decide (digitVal a ≤ 9) then
        (parseSlashDayYear rest).map (fun p => (digitVal a, p.1, p.2))
      else none
  | [] => none

/-- Field extraction of `strptime(s, '%m/%d/%Y')` as implemented by
CPython's `_strptime` (vendored by pandas): month (two-digit alternative
first, then one-digit), `/`, day, `/`, four-digit year, end of input.
Returns `(month, day, year)`. -/
def strptimeMDY (cs : List Char) : Option (Nat × Nat × Nat) :=
  (parseMonth2 cs).orElse (fun _ => parseMonth1 cs)

/-- Gregorian leap-year rule used by `datetime` (proleptic Gregorian). -/
def isLeapYear (y : Nat) : Bool := y % 4 == 0 && (y % 100 != 0 || y % 400 == 0)

/-- Length of a month, as in `datetime`. -/
def daysInMonth (y m : Nat) : Nat :=
  if m == 2 then (if isLeapYear y then 29 else 28)
  else if m == 4 || m == 6 || m == 9 || m == 11 then 30
  else 31

/-- Validity check of the `datetime.date(y, m, d)` constructor
(`MINYEAR = 1`, `MAXYEAR = 9999`): the parsed fields must form a real
proleptic-Gregorian calendar date, else `ValueError` is raised. -/
def validDate (y m d : Nat) : Bool :=
  decide (1 ≤ y ∧ y ≤ 9999 ∧ 1 ≤ m ∧ m ≤ 12 ∧ 1 ≤ d ∧ d ≤ daysInMonth y m)

/-- Lexicographic order on calendar dates given as year/month/day. -/
def dateLe (y1 m1 d1 y2 m2 d2 : Nat) : Bool :=
  decide (y1 < y2 ∨ (y1 = y2 ∧ (m1 < m2 ∨ (m1 = m2 ∧ d1 ≤ d2))))

/-- Nanosecond-resolution `pd.Timestamp` bounds: the midnight timestamps
representable in pandas run from 1677-09-22 through 2262-04-11; outside
them `pd.to_datetime` raises `OutOfBoundsDatetime`. -/
def inTimestampBounds (y m d : Nat) : Bool :=
  dateLe 1677 9 22 y m d && dateLe y m d 2262 4 11

/-- A canonical calendar date (the payload of a midnight
`pd.Timestamp`). -/
structure MDYDate where
  year : Nat
  month : Nat
  day : Nat
deriving DecidableEq, Repr

/-- Embedding of `pd.to_datetime(s, format='%m/%d/%Y')` on one cell
(src/streamlit_app.py line 33): strict-format strptime field
extraction, calendar validity, and pandas timestamp bounds.  `none`
models a raised `ValueError` / `OutOfBoundsDatetime`. -/
def to_datetime (s : String) : Option MDYDate :=
  match strptimeMDY s.data with
  | some (m, d, y) =>
      if validDate y m d && inTimestampBounds y m d then some ⟨y, m, d⟩ else none
  | none => none

/-- Zero-padded two-digit rendering of a value below 100 (`%m`, `%d`). -/
def fmt2 (n : Nat) : List Char := [digitChar (n / 10), digitChar (n % 10)]

/-- Zero-padded four-digit rendering of a value below 10000 (`%Y`; every
date within pandas timestamp bounds has a four-digit year). -/
def fmt4 (n : Nat) : List Char :=
  [digitChar (n / 1000), digitChar (n / 100 % 10), digitChar (n / 10 % 10), digitChar (n % 10)]

/-- Embedding of `Timestamp.strftime('%m/%d/%Y')`
(src/streamlit_app.py lines 36-37). -/
def strftimeMDY (dt : MDYDate) : String :=
  ⟨fmt2 dt.month ++ '/' :: fmt2 dt.day ++ '/' :: fmt4 dt.year⟩

/-- One raw spreadsheet row, as read by `pd.read_excel`.  Only the text
of the `Date` cell steers the control flow modelled in `runMain`
(filter, parse, banner, empty check); the numeric peak columns are
consumed afterwards by the statistics definitions below. -/
structure Raw where
  date : String
deriving DecidableEq, Repr

/-- The exception that aborts a run and lands in the generic
`except Exception` handler of `main` (src/streamlit_app.py line 285). -/
inductive PipeError where
  /-- `pd.to_datetime` raised on a value that passed the regex but is
  not a real parseable calendar date (line 33). -/
  | formatError : PipeError
  /-- `df['Date'].min()` of an empty frame is `NaT`, and
  `NaT.strftime('%m/%d/%Y')` raises `ValueError` (lines 36-37). -/
  | natStrftimeError : PipeError
deriving DecidableEq, Repr

/-- Outcome of one run of `main`. -/
inductive RunResult where
  /-- The run raised; the top-level handler shows
  `st.error(f"An error occurred while loading data: {e}")` and nothing
  after the raise point is rendered (no data table, no chart). -/
  | errorMsg : PipeError → RunResult
  /-- The dedicated `st.error("No valid data found in the Excel file.")`
  branch of line 62. -/
  | noValidData : RunResult
  /-- The run reached the rendering of the table, charts and
  statistics, carrying the parsed `Date` column. -/
  | rendered : List MDYDate → RunResult
deriving DecidableEq, Repr

/-- Column-wise `pd.to_datetime` on the filtered `Date` column: the
whole conversion raises (`none`) if any single cell fails to parse. -/
def parseDates : List Raw → Option (List MDYDate)
  | [] => some []
  | r :: t =>
      match to_datetime r.date, parseDates t with
      | some d, some ds => some (d :: ds)
      | _, _ => none

/-- Control flow of `main` (src/streamlit_app.py lines 26-64) up to the
point where the data table and charts start to render: filter rows by
`is_date_format`, convert the `Date` column, format the min/max dates
for the banner (which raises on an empty frame, because the min of an
empty datetime column is `NaT` and `NaT.strftime` raises — so the
dedicated `df.empty` check of line 62 is unreachable in the all-rows-
filtered case), then the `df.empty` check, then rendering. -/
def runMain (rows : List Raw) : RunResult :=
  let df := rows.filter (fun r => is_date_format r.date)
  match parseDates df with
  | none => RunResult.errorMsg PipeError.formatError
  | some ds =>
      if ds.isEmpty then RunResult.errorMsg PipeError.natStrftimeError
      else if ds.isEmpty then RunResult.noValidData
      else RunResult.rendered ds

/-- Arithmetic mean of a numeric column (`describe()['mean']`),
on the exact rationals modelling its float values. -/
def colMean (xs : List ℚ) : ℚ := xs.sum / (xs.length : ℚ)

/-- Minimum of a numeric column (`describe()['min']`). -/
def colMin : List ℚ → ℚ
  | [] => 0
  | x :: t => t.foldl min x

/-- Maximum of a numeric column (`describe()['max']`). -/
def colMax : List ℚ → ℚ
  | [] => 0
  | x :: t => t.foldl max x

/-- The column in ascending order (pandas sorts to take quantiles). -/
def sortedCol (xs : List ℚ) : List ℚ := List.insertionSort (· ≤ ·) xs

/-- Median (`describe()['50%']`, linear-interpolation quantile at 0.5):
the middle element for an odd count, the mean of the two middle
elements for a positive even count. -/
def colMedian (xs : List ℚ) : ℚ :=
  let s := sortedCol xs
  let n := s.length
  if n % 2 == 1 then s.getD (n / 2) 0
  else (s.getD (n / 2 - 1) 0 + s.getD (n / 2) 0) / 2

/-- Sample variance with `ddof = 1`, the radicand of
`describe()['std']`, as an exact rational (meaningful for counts of at
least 2; the count-below-2 edge is modelled by `describeStdRadicand`). -/
def sampleVar (xs : List ℚ) : ℚ :=
  ((xs.map (fun x => (x - colMean xs) ^ 2)).sum) / ((xs.length : ℚ) - 1)

/-- Count of rows strictly outside a closed interval:
`len(df[(df[col] < lower_range) | (df[col] > upper_range)])`
(src/streamlit_app.py lines 138 and 246). -/
def daysOutside (xs : List ℚ) (lo hi : ℚ) : Nat :=
  (xs.filter (fun x => decide (x < lo) || decide (hi < x))).length

/-- A double-precision value as the pipeline's arithmetic sees it:
a finite value (held exactly as a rational), one of the two infinities,
or `NaN`. -/
inductive PFloat where
  | fin : ℚ → PFloat
  | pinf : PFloat
  | ninf : PFloat
  | nan : PFloat
deriving DecidableEq, Repr

/-- NaN test. -/
def PFloat.isNaN : PFloat → Bool
  | .nan => true
  | _ => false

/-- Finite payload (0 for the non-finite values, which the places using
it have already excluded). -/
def PFloat.toRat : PFloat → ℚ
  | .fin q => q
  | _ => 0

/-- IEEE-754 division of two finite values, as numpy performs it
element-wise on a float column: `x / 0` is `±inf` for nonzero `x` and
`NaN` for `x = 0`. -/
def pfDiv (a b : ℚ) : PFloat :=
  if b = 0 then (if a = 0 then PFloat.nan else if 0 < a then PFloat.pinf else PFloat.ninf)
  else PFloat.fin (a / b)

/-- IEEE-754 subtraction on the modelled floats (`NaN` absorbs;
opposite infinities give `NaN`). -/
def PFloat.sub : PFloat → PFloat → PFloat
  | .nan, _ => .nan
  | _, .nan => .nan
  | .fin a, .fin b => .fin (a - b)
  | .fin _, .pinf => .ninf
  | .fin _, .ninf => .pinf
  | .pinf, .fin _ => .pinf
  | .ninf, .fin _ => .ninf
  | .pinf, .pinf => .nan
  | .pinf, .ninf => .pinf
  | .ninf, .pinf => .ninf
  | .ninf, .ninf => .nan

/-- IEEE-754 addition on the modelled floats. -/
def PFloat.add : PFloat → PFloat → PFloat
  | .nan, _ => .nan
  | _, .nan => .nan
  | .fin a, .fin b => .fin (a + b)
  | .fin _, .pinf => .pinf
  | .fin _, .ninf => .ninf
  | .pinf, .fin _ => .pinf
  | .ninf, .fin _ => .ninf
  | .pinf, .pinf => .pinf
  | .pinf, .ninf => .nan
  | .ninf, .pinf => .nan
  | .ninf, .ninf => .ninf

/-- Multiplication by the positive literal 100 (`... * 100`). -/
def PFloat.mul100 : PFloat → PFloat
  | .fin q => .fin (100 * q)
  | .pinf => .pinf
  | .ninf => .ninf
  | .nan => .nan

/-- `Series.mean()` with its default `skipna=True`: `NaN` entries are
dropped; the mean of nothing is `NaN`; a surviving `+inf` (resp.
`-inf`) makes the sum and hence the mean that infinity, and both
together give `NaN`; otherwise the exact finite mean. -/
def seriesMean (xs : List PFloat) : PFloat :=
  let ys := xs.filter (fun v => !v.isNaN)
  if ys.isEmpty then PFloat.nan
  else if PFloat.pinf ∈ ys ∧ PFloat.ninf ∈ ys then PFloat.nan
  else if PFloat.pinf ∈ ys then PFloat.pinf
  else if PFloat.ninf ∈ ys then PFloat.ninf
  else PFloat.fin (((ys.map PFloat.toRat).sum) / (ys.length : ℚ))

/-- The three call columns of one row. -/
structure CallRow where
  inbound : ℚ
  outbound : ℚ
  total : ℚ
deriving DecidableEq, Repr

/-- Embedding of
`(df['Calls Peak (Inbound)'] / df['Calls Peak']).mean() * 100`
(src/streamlit_app.py line 272). -/
def inboundPct (rows : List CallRow) : PFloat :=
  (seriesMean (rows.map (fun r => pfDiv r.inbound r.total))).mul100

/-- Embedding of
`(df['Calls Peak (Outbound)'] / df['Calls Peak']).mean() * 100`
(src/streamlit_app.py line 273). -/
def outboundPct (rows : List CallRow) : PFloat :=
  (seriesMean (rows.map (fun r => pfDiv r.outbound r.total))).mul100

/-- The radicand of pandas `describe()['std']` (sample variance,
`ddof = 1`): with fewer than two values the divisor `n - 1` is zero and
pandas produces `NaN`; otherwise the finite sample variance.  The
reported std is the square root of this value, and square root maps
`NaN` to `NaN` and finite nonnegatives to finite values, so the
NaN-ness of the reported std is the NaN-ness of this radicand. -/
def describeStdRadicand (xs : List ℚ) : PFloat :=
  if xs.length < 2 then PFloat.nan else PFloat.fin (sampleVar xs)

/-! Helper lemmas about digits, the regex core, and the parser. -/

lemma isDig_iff {c : Char} : isDig c = true ↔ 48 ≤ c.toNat ∧ c.toNat ≤ 57 := by
  simp [isDig]

lemma digitVal_lt_ten {c : Char} (h : isDig c = true) : digitVal c < 10 := by
  rw [isDig_iff] at h
  unfold digitVal
  omega

lemma digitChar_digitVal {c : Char} (h : isDig c = true) : digitChar (digitVal c) = c := by
  rw [isDig_iff] at h
  unfold digitChar digitVal
  rw [Nat.add_sub_cancel' h.1]
  exact Char.ofNat_toNat c

lemma isDig_digitChar {k : Nat} (h : k < 10) : isDig (digitChar k) = true := by
  interval_cases k <;> decide

lemma isDig_beq_slash {c : Char} (h : isDig c = true) : (c == '/') = false := by
  rw [beq_eq_false_iff_ne]
  rintro rfl
  revert h
  decide

lemma fmt2_digits {a b : Char} (ha : isDig a = true) (hb : isDig b = true) :
    fmt2 (10 * digitVal a + digitVal b) = [a, b] := by
  have h1 := digitVal_lt_ten hb
  unfold fmt2
  have e1 : (10 * digitVal a + digitVal b) / 10 = digitVal a := by omega
  have e2 : (10 * digitVal a + digitVal b) % 10 = digitVal b := by omega
  rw [e1, e2, digitChar_digitVal ha, digitChar_digitVal hb]

lemma fmt4_digits {e f g h : Char} (he : isDig e = true) (hf : isDig f = true)
    (hg : isDig g = true) (hh : isDig h = true) :
    fmt4 (1000 * digitVal e + 100 * digitVal f + 10 * digitVal g + digitVal h) =
      [e, f, g, h] := by
  have h1 := digitVal_lt_ten hf
  have h2 := digitVal_lt_ten hg
  have h3 := digitVal_lt_ten hh
  unfold fmt4
  have e1 : (1000 * digitVal e + 100 * digitVal f + 10 * digitVal g + digitVal h) / 1000 =
      digitVal e := by omega
  have e2 : (1000 * digitVal e + 100 * digitVal f + 10 * digitVal g + digitVal h) / 100 % 10 =
      digitVal f := by omega
  have e3 : (1000 * digitVal e + 100 * digitVal f + 10 * digitVal g + digitVal h) / 10 % 10 =
      digitVal g := by omega
  have e4 : (1000 * digitVal e + 100 * digitVal f + 10 * digitVal g + digitVal h) % 10 =
      digitVal h := by omega
  rw [e1, e2, e3, e4, digitChar_digitVal he, digitChar_digitVal hf, digitChar_digitVal hg,
    digitChar_digitVal hh]

lemma orElse_none_fun {α : Type} (x : Option α) : (x.orElse fun _ => none) = x := by
  cases x <;> rfl

lemma parseSlashYear_cons_slash (l : List Char) : parseSlashYear ('/' :: l) = parseYear4 l := by
  simp [parseSlashYear]

lemma parseSlashYear_cons_digit {c : Char} (h : isDig c = true) (l : List Char) :
    parseSlashYear (c :: l) = none := by
  simp [parseSlashYear, isDig_beq_slash h]

lemma parseSlashDayYear_cons_slash (l : List Char) :
    parseSlashDayYear ('/' :: l) = parseDayYear l := by
  simp [parseSlashDayYear]

lemma parseSlashDayYear_cons_digit {c : Char} (h : isDig c = true) (l : List Char) :
    parseSlashDayYear (c :: l) = none := by
  simp [parseSlashDayYear, isDig_beq_slash h]

lemma parseYear4_digits {e f g h : Char} (he : isDig e = true) (hf : isDig f = true)
    (hg : isDig g = true) (hh : isDig h = true) :
    parseYear4 [e, f, g, h] =
      some (1000 * digitVal e + 100 * digitVal f + 10 * digitVal g + digitVal h) := by
  simp [parseYear4, he, hf, hg, hh]

lemma parseYear4_five (x1 x2 x3 x4 x5 : Char) (l : List Char) :
    parseYear4 (x1 :: x2 :: x3 :: x4 :: x5 :: l) = none := by
  simp [parseYear4]

lemma parseDayYear_two_digits {c d : Char} (hc : isDig c = true) (hd : isDig d = true)
    (rest : List Char) :
    parseDayYear (c :: d :: rest) =
      if 1 ≤ 10 * digitVal c + digitVal d ∧ 10 * digitVal c + digitVal d ≤ 31 then
        (parseSlashYear rest).map (fun y => (10 * digitVal c + digitVal d, y))
      else none := by
  have h1 : parseDay1 (c :: d :: rest) = none := by
    simp [parseDay1, parseSlashYear_cons_digit hd]
  unfold parseDayYear
  simp only [parseDay2, hc, hd, Bool.true_and, Bool.and_eq_true, decide_eq_true_eq]
  by_cases hr : 1 ≤ 10 * digitVal c + digitVal d ∧ 10 * digitVal c + digitVal d ≤ 31
  · rw [if_pos hr]
    simp only [h1]
    exact orElse_none_fun _
  · rw [if_neg hr]
    simp [h1, Option.orElse]

lemma strptimeMDY_two_digits {a b : Char} (ha : isDig a = true) (hb : isDig b = true)
    (rest : List Char) :
    strptimeMDY (a :: b :: rest) =
      if 1 ≤ 10 * digitVal a + digitVal b ∧ 10 * digitVal a + digitVal b ≤ 12 then
        (parseSlashDayYear rest).map (fun p => (10 * digitVal a + digitVal b, p.1, p.2))
      else none := by
  have h1 : parseMonth1 (a :: b :: rest) = none := by
    simp [parseMonth1, parseSlashDayYear_cons_digit hb]
  unfold strptimeMDY
  simp only [parseMonth2, ha, hb, Bool.true_and, Bool.and_eq_true, decide_eq_true_eq]
  by_cases hr : 1 ≤ 10 * digitVal a + digitVal b ∧ 10 * digitVal a + digitVal b ≤ 12
  · rw [if_pos hr]
    simp only [h1]
    exact orElse_none_fun _
  · rw [if_neg hr]
    simp [h1, Option.orElse]

lemma strptimeMDY_shape10 {a b c d e f g h : Char}
    (ha : isDig a = true) (hb : isDig b = true) (hc : isDig c = true) (hd : isDig d = true)
    (he : isDig e = true) (hf : isDig f = true) (hg : isDig g = true) (hh : isDig h = true) :
    strptimeMDY [a, b, '/', c, d, '/', e, f, g, h] =
      if 1 ≤ 10 * digitVal a + digitVal b ∧ 10 * digitVal a + digitVal b ≤ 12 then
        if 1 ≤ 10 * digitVal c + digitVal d ∧ 10 * digitVal c + digitVal d ≤ 31 then
          some (10 * digitVal a + digitVal b, 10 * digitVal c + digitVal d,
            1000 * digitVal e + 100 * digitVal f + 10 * digitVal g + digitVal h)
        else none
      else none := by
  rw [strptimeMDY_two_digits ha hb, parseSlashDayYear_cons_slash,
    parseDayYear_two_digits hc hd, parseSlashYear_cons_slash, parseYear4_digits he hf hg hh]
  split_ifs <;> simp

lemma strptimeMDY_shape11 {a b c d e f g h : Char}
    (ha : isDig a = true) (hb : isDig b = true) (hc : isDig c = true) (hd : isDig d = true)
    (x : Char) :
    strptimeMDY [a, b, '/', c, d, '/', e, f, g, h, x] = none := by
  rw [strptimeMDY_two_digits ha hb, parseSlashDayYear_cons_slash,
    parseDayYear_two_digits hc hd, parseSlashYear_cons_slash, parseYear4_five]
  split_ifs <;> simp

lemma to_datetime_eq_of_strptime {s : String} {m d y : Nat}
    (h : strptimeMDY s.data = some (m, d, y)) :
    to_datetime s =
      if validDate y m d && inTimestampBounds y m d then some ⟨y, m, d⟩ else none := by
  unfold to_datetime
  rw [h]

lemma to_datetime_eq_none_of_strptime {s : String} (h : strptimeMDY s.data = none) :
    to_datetime s = none := by
  unfold to_datetime
  rw [h]

lemma dateRe_eq_true_iff (cs : List Char) :
    dateRe cs = true ↔
      ∃ a b c d e f g h : Char,
        (isDig a = true ∧ isDig b = true ∧ isDig c = true ∧ isDig d = true ∧
         isDig e = true ∧ isDig f = true ∧ isDig g = true ∧ isDig h = true) ∧
        (cs = [a, b, '/', c, d, '/', e, f, g, h] ∨
         cs = [a, b, '/', c, d, '/', e, f, g, h, '\n']) := by
  constructor
  · intro hre
    rcases cs with _ | ⟨a, cs⟩
    · exact absurd hre (by simp [dateRe])
    rcases cs with _ | ⟨b, cs⟩
    · exact absurd hre (by simp [dateRe])
    rcases cs with _ | ⟨s1, cs⟩
    · exact absurd hre (by simp [dateRe])
    rcases cs with _ | ⟨c, cs⟩
    · exact absurd hre (by simp [dateRe])
    rcases cs with _ | ⟨d, cs⟩
    · exact absurd hre (by simp [dateRe])
    rcases cs with _ | ⟨s2, cs⟩
    · exact absurd hre (by simp [dateRe])
    rcases cs with _ | ⟨e, cs⟩
    · exact absurd hre (by simp [dateRe])
    rcases cs with _ | ⟨f, cs⟩
    · exact absurd hre (by simp [dateRe])
    rcases cs with _ | ⟨g, cs⟩
    · exact absurd hre (by simp [dateRe])
    rcases cs with _ | ⟨h, cs⟩
    · exact absurd hre (by simp [dateRe])
    rcases cs with _ | ⟨nl, cs⟩
    · simp only [dateRe, Bool.and_eq_true, beq_iff_eq, and_assoc] at hre
      obtain ⟨ha, hb, hs1, hc, hd, hs2, he, hf, hg, hh⟩ := hre
      subst hs1
      subst hs2
      exact ⟨a, b, c, d, e, f, g, h, ⟨ha, hb, hc, hd, he, hf, hg, hh⟩, Or.inl rfl⟩
    rcases cs with _ | ⟨x, cs⟩
    · simp only [dateRe, Bool.and_eq_true, beq_iff_eq, and_assoc] at hre
      obtain ⟨ha, hb, hs1, hc, hd, hs2, he, hf, hg, hh, hnl⟩ := hre
      subst hs1
      subst hs2
      subst hnl
      exact ⟨a, b, c, d, e, f, g, h, ⟨ha, hb, hc, hd, he, hf, hg, hh⟩, Or.inr rfl⟩
    · exact absurd hre (by simp [dateRe])
  · rintro ⟨a, b, c, d, e, f, g, h, ⟨ha, hb, hc, hd, he, hf, hg, hh⟩, rfl | rfl⟩ <;>
      simp [dateRe, ha, hb, hc, hd, he, hf, hg, hh]

/-- Claim C5: for every date string accepted by the Row Validator
(`is_date_format`) and successfully parsed by the Date Normalizer
(`pd.to_datetime` with format `%m/%d/%Y`), formatting the resulting
canonical date back with `strftime('%m/%d/%Y')` yields the original
string. -/
theorem to_datetime_strftime_roundtrip (s : String) (dt : MDYDate)
    (hfmt : is_date_format s = true) (hparse : to_datetime s = some dt) :
    strftimeMDY dt = s := by
  obtain ⟨a, b, c, d, e, f, g, h, ⟨ha, hb, hc, hd, he, hf, hg, hh⟩, hshape⟩ :=
    (dateRe_eq_true_iff s.data).mp hfmt
  rcases hshape with heq | heq
  · have hstrp := strptimeMDY_shape10 ha hb hc hd he hf hg hh
    rw [← heq] at hstrp
    by_cases hm : 1 ≤ 10 * digitVal a + digitVal b ∧ 10 * digitVal a + digitVal b ≤ 12
    · by_cases hdy : 1 ≤ 10 * digitVal c + digitVal d ∧ 10 * digitVal c + digitVal d ≤ 31
      · rw [if_pos hm, if_pos hdy] at hstrp
        rw [to_datetime_eq_of_strptime hstrp] at hparse
        by_cases hv : (validDate
            (1000 * digitVal e + 100 * digitVal f + 10 * digitVal g + digitVal h)
            (10 * digitVal a + digitVal b) (10 * digitVal c + digitVal d) &&
          inTimestampBounds
            (1000 * digitVal e + 100 * digitVal f + 10 * digitVal g + digitVal h)
            (10 * digitVal a + digitVal b) (10 * digitVal c + digitVal d)) = true
        · rw [if_pos hv] at hparse
          obtain rfl : (⟨1000 * digitVal e + 100 * digitVal f + 10 * digitVal g + digitVal h,
              10 * digitVal a + digitVal b, 10 * digitVal c + digitVal d⟩ : MDYDate) = dt :=
            Option.some.inj hparse
          apply String.ext
          show fmt2 (10 * digitVal a + digitVal b) ++ '/' ::
              fmt2 (10 * digitVal c + digitVal d) ++ '/' ::
              fmt4 (1000 * digitVal e + 100 * digitVal f + 10 * digitVal g + digitVal h) =
            s.data
          rw [fmt2_digits ha hb, fmt2_digits hc hd, fmt4_digits he hf hg hh, heq]
          rfl
        · rw [if_neg hv] at hparse
          exact absurd hparse (by simp)
      · rw [if_pos hm, if_neg hdy] at hstrp
        rw [to_datetime_eq_none_of_strptime hstrp] at hparse
        exact absurd hparse (by simp)
    · rw [if_neg hm] at hstrp
      rw [to_datetime_eq_none_of_strptime hstrp] at hparse
      exact absurd hparse (by simp)
  · have hstrp : strptimeMDY s.data = none := by
      rw [heq]
      exact strptimeMDY_shape11 ha hb hc hd '\n'
    rw [to_datetime_eq_none_of_strptime hstrp] at hparse
    exact absurd hparse (by simp)

/-- Claim C5 witness: the concrete string "01/02/2024" passes the
validator, parses, and round-trips. -/
theorem to_datetime_strftime_roundtrip_w :
    is_date_format "01/02/2024" = true ∧ to_datetime "01/02/2024" = some ⟨2024, 1, 2⟩ ∧
      strftimeMDY ⟨2024, 1, 2⟩ = "01/02/2024" :=
  ⟨by decide, by decide,
    to_datetime_strftime_roundtrip "01/02/2024" ⟨2024, 1, 2⟩ (by decide) (by decide)⟩

/-- Claim C10: every string of the form two digits, `/`, two digits,
`/`, four digits followed by a single trailing newline is accepted by
`is_date_format` (the regex end anchor `$` matches before a final
newline), yet fails the exact-format `pd.to_datetime` parse. -/
theorem newline_passes_regex_fails_parse (a b c d e f g h : Char)
    (ha : isDig a = true) (hb : isDig b = true) (hc : isDig c = true) (hd : isDig d = true)
    (he : isDig e = true) (hf : isDig f = true) (hg : isDig g = true) (hh : isDig h = true) :
    is_date_format ⟨[a, b, '/', c, d, '/', e, f, g, h, '\n']⟩ = true ∧
    to_datetime ⟨[a, b, '/', c, d, '/', e, f, g, h, '\n']⟩ = none := by
  constructor
  · show dateRe [a, b, '/', c, d, '/', e, f, g, h, '\n'] = true
    exact (dateRe_eq_true_iff _).mpr
      ⟨a, b, c, d, e, f, g, h, ⟨ha, hb, hc, hd, he, hf, hg, hh⟩, Or.inr rfl⟩
  · apply to_datetime_eq_none_of_strptime
    show strptimeMDY [a, b, '/', c, d, '/', e, f, g, h, '\n'] = none
    exact strptimeMDY_shape11 ha hb hc hd '\n'

/-- Claim C10 witness: the concrete string "01/02/2024\n". -/
theorem newline_passes_regex_fails_parse_w :
    is_date_format "01/02/2024\n" = true ∧ to_datetime "01/02/2024\n" = none :=
  newline_passes_regex_fails_parse '0' '1' '0' '2' '2' '0' '2' '4'
    (by decide) (by decide) (by decide) (by decide) (by decide) (by decide) (by decide)
    (by decide)

/-- Claim C1, counterexample: the validation pattern is anchored at the
start as well (`re.match`), so the string "x01/02/2024" — a non-empty
prefix followed by a trailing MM/DD/YYYY substring, which the claim
says is accepted — is rejected. -/
theorem prefixed_date_rejected_cex : is_date_format "x01/02/2024" = false := by decide

/-- Claim C1 as amended: `is_date_format` returns true iff the input is
exactly two digits, `/`, two digits, `/`, four digits, optionally
followed by one trailing newline — the pattern is anchored at the start
(`re.match`) as well as at the end (`$`, which also matches just before
a single final newline). -/
theorem is_date_format_true_iff (s : String) :
    is_date_format s = true ↔
      ∃ m d y : Nat, m < 100 ∧ d < 100 ∧ y < 10000 ∧
        (s.data = fmt2 m ++ '/' :: fmt2 d ++ '/' :: fmt4 y ∨
         s.data = fmt2 m ++ '/' :: fmt2 d ++ '/' :: fmt4 y ++ ['\n']) := by
  constructor
  · intro h1
    obtain ⟨a, b, c, d, e, f, g, h, ⟨ha, hb, hc, hd, he, hf, hg, hh⟩, hshape⟩ :=
      (dateRe_eq_true_iff s.data).mp h1
    have va := digitVal_lt_ten ha
    have vb := digitVal_lt_ten hb
    have vc := digitVal_lt_ten hc
    have vd := digitVal_lt_ten hd
    have ve := digitVal_lt_ten he
    have vf := digitVal_lt_ten hf
    have vg := digitVal_lt_ten hg
    have vh := digitVal_lt_ten hh
    refine ⟨10 * digitVal a + digitVal b, 10 * digitVal c + digitVal d,
      1000 * digitVal e + 100 * digitVal f + 10 * digitVal g + digitVal h,
      by omega, by omega, by omega, ?_⟩
    rw [fmt2_digits ha hb, fmt2_digits hc hd, fmt4_digits he hf hg hh]
    rcases hshape with heq | heq
    · exact Or.inl (by rw [heq]; rfl)
    · exact Or.inr (by rw [heq]; rfl)
  · rintro ⟨m, d, y, hm, hd, hy, heq | heq⟩ <;>
    · apply (dateRe_eq_true_iff s.data).mpr
      refine ⟨digitChar (m / 10), digitChar (m % 10), digitChar (d / 10), digitChar (d % 10),
        digitChar (y / 1000), digitChar (y / 100 % 10), digitChar (y / 10 % 10),
        digitChar (y % 10),
        ⟨isDig_digitChar (by omega), isDig_digitChar (by omega), isDig_digitChar (by omega),
         isDig_digitChar (by omega), isDig_digitChar (by omega), isDig_digitChar (by omega),
         isDig_digitChar (by omega), isDig_digitChar (by omega)⟩, ?_⟩
      first
        | exact Or.inl (by rw [heq]; rfl)
        | exact Or.inr (by rw [heq]; rfl)

/-- Claim C1 (amended) witness: the iff at the concrete accepted string
"01/02/2024". -/
theorem is_date_format_true_iff_w : is_date_format "01/02/2024" = true :=
  (is_date_format_true_iff "01/02/2024").mpr
    ⟨1, 2, 2024, by decide, by decide, by decide, Or.inl (by decide)⟩

lemma parseDates_none_of_mem {l : List Raw} {r : Raw} (hmem : r ∈ l)
    (hbad : to_datetime r.date = none) : parseDates l = none := by
  induction l with
  | nil => cases hmem
  | cons a t ih =>
    rcases List.mem_cons.mp hmem with rfl | hmem2
    · simp [parseDates, hbad]
    · cases h : to_datetime a.date <;> simp [parseDates, h, ih hmem2]

/-- Claim C2: a row whose date string passes the Row Validator's regex
but is not a real calendar date makes `pd.to_datetime` raise; the
exception is caught by the top-level handler and surfaced as a
user-visible error message, and no data table or chart is rendered for
that run. -/
theorem format_error_aborts_run (rows : List Raw) (r : Raw) (hmem : r ∈ rows)
    (hfmt : is_date_format r.date = true) (hbad : to_datetime r.date = none) :
    runMain rows = RunResult.errorMsg PipeError.formatError ∧
    ∀ ds, runMain rows ≠ RunResult.rendered ds := by
  have hmem2 : r ∈ rows.filter (fun rr => is_date_format rr.date) :=
    List.mem_filter.mpr ⟨hmem, hfmt⟩
  have hnone := parseDates_none_of_mem hmem2 hbad
  have hrun : runMain rows = RunResult.errorMsg PipeError.formatError := by
    simp [runMain, hnone]
  refine ⟨hrun, fun ds hcontra => ?_⟩
  rw [hrun] at hcontra
  exact absurd hcontra (by simp)

/-- Claim C2 witness: the row "02/30/2024" (passes regex, invalid
calendar date) aborts the run with the caught format error. -/
theorem format_error_aborts_run_w :
    (⟨"02/30/2024"⟩ : Raw) ∈ [(⟨"02/30/2024"⟩ : Raw)] ∧
    is_date_format "02/30/2024" = true ∧ to_datetime "02/30/2024" = none ∧
    (runMain [⟨"02/30/2024"⟩] = RunResult.errorMsg PipeError.formatError ∧
     ∀ ds, runMain [⟨"02/30/2024"⟩] ≠ RunResult.rendered ds) :=
  ⟨by decide, by decide, by decide,
    format_error_aborts_run [⟨"02/30/2024"⟩] ⟨"02/30/2024"⟩ (by decide) (by decide) (by decide)⟩

/-- Claim C3, code evaluation at the failing input: with zero
date-matching rows the run does NOT surface the dedicated
"No valid data found in the Excel file." message — `df['Date'].min()`
of the empty frame is `NaT`, `NaT.strftime` raises on line 36 before
the `df.empty` check of line 62 is ever reached, and the generic
"An error occurred while loading data" handler message is shown
instead. -/
theorem empty_input_generic_error_not_distinct :
    runMain [⟨"bad-row"⟩] = RunResult.errorMsg PipeError.natStrftimeError ∧
    runMain [⟨"bad-row"⟩] ≠ RunResult.noValidData := by decide

/-- Claim C4, code evaluation at the failing input: a record with
`Calls Peak = 0` and nonzero inbound calls is not excluded — its
quotient is `+inf`, which propagates through `Series.mean()` into the
displayed percentage ("inf%").  Excluding that record (second conjunct)
would instead give the finite 30%. -/
theorem zero_total_propagates_inf :
    inboundPct [⟨50, 50, 0⟩, ⟨30, 70, 100⟩] = PFloat.pinf ∧
    inboundPct [⟨30, 70, 100⟩] = PFloat.fin 30 := by
  constructor
  · decide
  · norm_num [inboundPct, seriesMean, pfDiv, PFloat.isNaN, PFloat.toRat]
    simp only [reduceCtorEq, false_and, if_false]
    norm_num [PFloat.mul100]

lemma seriesMean_replicate (n : Nat) (hn : n ≠ 0) (q : ℚ) :
    seriesMean (List.replicate n (PFloat.fin q)) = PFloat.fin q := by
  have hne : (List.replicate n (PFloat.fin q)).isEmpty = false := by
    cases n with
    | zero => exact absurd rfl hn
    | succ m => rfl
  have hn0 : ((n : ℚ)) ≠ 0 := Nat.cast_ne_zero.mpr hn
  unfold seriesMean
  simp only [List.filter_replicate, PFloat.isNaN, Bool.not_false, if_true, hne,
    Bool.false_eq_true, if_false, List.mem_replicate, reduceCtorEq, and_false, false_and,
    List.map_replicate, PFloat.toRat, List.sum_replicate, List.length_replicate,
    nsmul_eq_mul]
  rw [mul_div_cancel_left₀ q hn0]

/-- Claim C6: when every record has inbound 30, outbound 70 and total
100, the displayed average ratios are exactly 30.0% inbound and 70.0%
outbound. -/
theorem all_30_70_100_ratio (rows : List CallRow) (hne : rows ≠ [])
    (hall : ∀ r ∈ rows, r.inbound = 30 ∧ r.outbound = 70 ∧ r.total = 100) :
    inboundPct rows = PFloat.fin 30 ∧ outboundPct rows = PFloat.fin 70 := by
  have hlen : rows.length ≠ 0 := fun h => hne (List.length_eq_zero.mp h)
  have hin : rows.map (fun r => pfDiv r.inbound r.total) =
      List.replicate rows.length (PFloat.fin (3 / 10)) := by
    refine List.eq_replicate_iff.mpr ⟨by simp, ?_⟩
    intro v hv
    obtain ⟨r, hr, rfl⟩ := List.mem_map.mp hv
    obtain ⟨h1, h2, h3⟩ := hall r hr
    rw [h1, h3]
    norm_num [pfDiv]
  have hout : rows.map (fun r => pfDiv r.outbound r.total) =
      List.replicate rows.length (PFloat.fin (7 / 10)) := by
    refine List.eq_replicate_iff.mpr ⟨by simp, ?_⟩
    intro v hv
    obtain ⟨r, hr, rfl⟩ := List.mem_map.mp hv
    obtain ⟨h1, h2, h3⟩ := hall r hr
    rw [h2, h3]
    norm_num [pfDiv]
  constructor
  · unfold inboundPct
    rw [hin, seriesMean_replicate _ hlen]
    simp only [PFloat.mul100]
    norm_num
  · unfold outboundPct
    rw [hout, seriesMean_replicate _ hlen]
    simp only [PFloat.mul100]
    norm_num

/-- Claim C6 witness: one record with inbound 30, outbound 70,
total 100. -/
theorem all_30_70_100_ratio_w :
    ([(⟨30, 70, 100⟩ : CallRow)] ≠ []) ∧
    (inboundPct [⟨30, 70, 100⟩] = PFloat.fin 30 ∧
     outboundPct [⟨30, 70, 100⟩] = PFloat.fin 70) :=
  ⟨by decide, all_30_70_100_ratio [⟨30, 70, 100⟩] (by decide) (by decide)⟩

lemma foldl_min_le (t : List ℚ) (a : ℚ) :
    t.foldl min a ≤ a ∧ ∀ y ∈ t, t.foldl min a ≤ y := by
  induction t generalizing a with
  | nil => exact ⟨le_refl a, by simp⟩
  | cons b t ih =>
    obtain ⟨h1, h2⟩ := ih (min a b)
    refine ⟨le_trans h1 (min_le_left a b), ?_⟩
    intro y hy
    rcases List.mem_cons.mp hy with rfl | hy2
    · exact le_trans h1 (min_le_right a y)
    · exact h2 y hy2

lemma foldl_max_ge (t : List ℚ) (a : ℚ) :
    a ≤ t.foldl max a ∧ ∀ y ∈ t, y ≤ t.foldl max a := by
  induction t generalizing a with
  | nil => exact ⟨le_refl a, by simp⟩
  | cons b t ih =>
    obtain ⟨h1, h2⟩ := ih (max a b)
    refine ⟨le_trans (le_max_left a b) h1, ?_⟩
    intro y hy
    rcases List.mem_cons.mp hy with rfl | hy2
    · exact le_trans (le_max_right a y) h1
    · exact h2 y hy2

lemma colMin_le_mem {xs : List ℚ} {x : ℚ} (hx : x ∈ xs) : colMin xs ≤ x := by
  rcases xs with _ | ⟨a, t⟩
  · cases hx
  · rcases List.mem_cons.mp hx with rfl | hx2
    · exact (foldl_min_le t x).1
    · exact (foldl_min_le t a).2 x hx2

lemma mem_le_colMax {xs : List ℚ} {x : ℚ} (hx : x ∈ xs) : x ≤ colMax xs := by
  rcases xs with _ | ⟨a, t⟩
  · cases hx
  · rcases List.mem_cons.mp hx with rfl | hx2
    · exact (foldl_max_ge t x).1
    · exact (foldl_max_ge t a).2 x hx2

lemma colMin_le_colMean {xs : List ℚ} (h : xs ≠ []) : colMin xs ≤ colMean xs := by
  have hpos : (0 : ℚ) < xs.length := by
    exact_mod_cast List.length_pos.mpr h
  have hsum : (xs.length : ℚ) * colMin xs ≤ xs.sum := by
    have := List.card_nsmul_le_sum xs (colMin xs) (fun x hx => colMin_le_mem hx)
    simpa [nsmul_eq_mul] using this
  unfold colMean
  rw [le_div_iff₀ hpos]
  linarith

lemma colMean_le_colMax {xs : List ℚ} (h : xs ≠ []) : colMean xs ≤ colMax xs := by
  have hpos : (0 : ℚ) < xs.length := by
    exact_mod_cast List.length_pos.mpr h
  have hsum : xs.sum ≤ (xs.length : ℚ) * colMax xs := by
    have := List.sum_le_card_nsmul xs (colMax xs) (fun x hx => mem_le_colMax hx)
    simpa [nsmul_eq_mul] using this
  unfold colMean
  rw [div_le_iff₀ hpos]
  linarith

lemma colMedian_bounds {xs : List ℚ} (h : xs ≠ []) :
    colMin xs ≤ colMedian xs ∧ colMedian xs ≤ colMax xs := by
  have hperm : (sortedCol xs).Perm xs := List.perm_insertionSort _ xs
  have hmem : ∀ y ∈ sortedCol xs, colMin xs ≤ y ∧ y ≤ colMax xs := fun y hy =>
    ⟨colMin_le_mem (hperm.mem_iff.mp hy), mem_le_colMax (hperm.mem_iff.mp hy)⟩
  have hlpos : 0 < (sortedCol xs).length := by
    rw [hperm.length_eq]
    exact List.length_pos.mpr h
  unfold colMedian
  dsimp only
  split_ifs with hodd
  · have hlt : (sortedCol xs).length / 2 < (sortedCol xs).length :=
      Nat.div_lt_self hlpos (by norm_num)
    rw [List.getD_eq_getElem _ _ hlt]
    exact hmem _ (List.getElem_mem hlt)
  · have heven : (sortedCol xs).length % 2 = 0 := by
      rcases Nat.mod_two_eq_zero_or_one (sortedCol xs).length with h0 | h1
      · exact h0
      · exact absurd (by simpa using h1) hodd
    have hlt2 : (sortedCol xs).length / 2 < (sortedCol xs).length := by omega
    have hlt1 : (sortedCol xs).length / 2 - 1 < (sortedCol xs).length := by omega
    rw [List.getD_eq_getElem _ _ hlt1, List.getD_eq_getElem _ _ hlt2]
    obtain ⟨hu1, hu2⟩ := hmem _ (List.getElem_mem hlt1)
    obtain ⟨hv1, hv2⟩ := hmem _ (List.getElem_mem hlt2)
    constructor
    · linarith
    · linarith

/-- Claim C7: for a Dataset with at least two records, the statistics
reported by `describe()` satisfy min ≤ mean ≤ max and
min ≤ median ≤ max for every numeric column. -/
theorem describe_stats_ordered (xs : List ℚ) (h2 : 2 ≤ xs.length) :
    colMin xs ≤ colMean xs ∧ colMean xs ≤ colMax xs ∧
    colMin xs ≤ colMedian xs ∧ colMedian xs ≤ colMax xs := by
  have hne : xs ≠ [] := by
    intro h
    rw [h] at h2
    simp at h2
  obtain ⟨hm1, hm2⟩ := colMedian_bounds hne
  exact ⟨colMin_le_colMean hne, colMean_le_colMax hne, hm1, hm2⟩

/-- Claim C7 witness: the two-record column [1, 3]. -/
theorem describe_stats_ordered_w :
    2 ≤ ([1, 3] : List ℚ).length ∧
    (colMin [1, 3] ≤ colMean [1, 3] ∧ colMean [1, 3] ≤ colMax [1, 3] ∧
     colMin [1, 3] ≤ colMedian [1, 3] ∧ colMedian [1, 3] ≤ colMax [1, 3]) :=
  ⟨by decide, describe_stats_ordered [1, 3] (by decide)⟩

/-- Claim C8: for any numeric column, the number of records strictly
outside the typical range [mean − std, mean + std] is at most the total
record count, and is 0 when the standard deviation is 0 and all values
equal the mean.  `std` is the code's standard deviation, pinned by the
hypotheses to the nonnegative square root of the sample variance. -/
theorem days_outside_range_bounds (xs : List ℚ) (std : ℚ)
    (hpos : 0 ≤ std) (hstd : std * std = sampleVar xs) :
    daysOutside xs (colMean xs - std) (colMean xs + std) ≤ xs.length ∧
    ((std = 0 ∧ ∀ x ∈ xs, x = colMean xs) →
      daysOutside xs (colMean xs - std) (colMean xs + std) = 0) := by
  constructor
  · exact List.length_filter_le _ xs
  · rintro ⟨rfl, hall⟩
    unfold daysOutside
    rw [List.length_eq_zero]
    apply List.filter_eq_nil_iff.mpr
    intro x hx
    rw [hall x hx]
    simp

/-- Claim C8 witness: the column [2, 2] with standard deviation 0. -/
theorem days_outside_range_bounds_w :
    (0 : ℚ) ≤ 0 ∧ (0 : ℚ) * 0 = sampleVar [2, 2] ∧
    (daysOutside [2, 2] (colMean [2, 2] - 0) (colMean [2, 2] + 0) ≤ ([2, 2] : List ℚ).length ∧
     (((0 : ℚ) = 0 ∧ ∀ x ∈ ([2, 2] : List ℚ), x = colMean [2, 2]) →
       daysOutside [2, 2] (colMean [2, 2] - 0) (colMean [2, 2] + 0) = 0)) :=
  ⟨le_refl 0, by norm_num [sampleVar, colMean],
    days_outside_range_bounds [2, 2] 0 (le_refl 0) (by norm_num [sampleVar, colMean])⟩

/-- Claim C9, code evaluation at the failing input: for a single-record
dataset, pandas `describe()['std']` is `NaN` (sample variance divides
by n − 1 = 0), not a deterministic numeric fallback such as zero, and
the `NaN` propagates into the typical-range bounds mean ± std consumed
by the formatting. -/
theorem single_record_std_nan :
    describeStdRadicand [(50 : ℚ)] = PFloat.nan ∧
    PFloat.sub (PFloat.fin (colMean [(50 : ℚ)])) PFloat.nan = PFloat.nan ∧
    PFloat.add (PFloat.fin (colMean [(50 : ℚ)])) PFloat.nan = PFloat.nan :=
  ⟨by decide, rfl, rfl⟩

example : is_date_format "01/02/2024" = true := by decide
example : is_date_format "x01/02/2024" = false := by decide
example : is_date_format "01/02/2024\n" = true := by decide
example : is_date_format "1/2/2024" = false := by decide
example : to_datetime "02/30/2024" = none := by decide
example : to_datetime "01/02/2024" = some ⟨2024, 1, 2⟩ := by decide
example : to_datetime "02/29/2024" = some ⟨2024, 2, 29⟩ := by decide
example : to_datetime "02/29/2023" = none := by decide
example : to_datetime "01/02/2024\n" = none := by decide
example : to_datetime "01/01/1600" = none := by decide
example : strftimeMDY ⟨2024, 1, 2⟩ = "01/02/2024" := by decide

example : runMain [⟨"bad-row"⟩] = RunResult.errorMsg PipeError.natStrftimeError := by decide
example : runMain [⟨"02/30/2024"⟩] = RunResult.errorMsg PipeError.formatError := by decide
example : runMain [⟨"01/02/2024"⟩, ⟨"junk"⟩] = RunResult.rendered [⟨2024, 1, 2⟩] := by decide
example : inboundPct [⟨50, 50, 0⟩, ⟨30, 70, 100⟩] = PFloat.pinf := by decide
example : inboundPct [⟨30, 70, 100⟩] = PFloat.fin 30 := by
  norm_num [inboundPct, seriesMean, pfDiv, PFloat.isNaN, PFloat.toRat]
  simp only [reduceCtorEq, false_and, if_false]
  norm_num [PFloat.mul100]
example : outboundPct [⟨30, 70, 100⟩] = PFloat.fin 70 := by
  norm_num [outboundPct, seriesMean, pfDiv, PFloat.isNaN, PFloat.toRat]
  simp only [reduceCtorEq, false_and, if_false]
  norm_num [PFloat.mul100]
example : colMedian [3, 1] = 2 := by norm_num [colMedian, sortedCol, List.insertionSort, List.orderedInsert]
example : colMedian [3, 1, 7] = 3 := by decide
example : colMean [1, 3] = 2 := by norm_num [colMean]
example : describeStdRadicand [50] = PFloat.nan := by decide
example : daysOutside [2, 2] 2 2 = 0 := by decide
example : sampleVar [2, 2] = 0 := by norm_num [sampleVar, colMean]
example : inboundPct [⟨0, 0, 0⟩, ⟨30, 70, 100⟩] = PFloat.fin 30 := by
  norm_num [inboundPct, seriesMean, pfDiv, PFloat.isNaN, PFloat.toRat]
  simp only [reduceCtorEq, false_and, if_false]
  norm_num [PFloat.mul100]

end Peaks
